import Mathlib

/-!
Shallow embedding of the granola meeting sync and query CLI
(src/scripts/granola.py) and verification of its specification.

Python dictionaries with optional keys are modelled with structures whose
fields are `Option`-valued (with `none` standing for an absent key), Python
string truthiness is modelled explicitly by `truthy`, the filesystem storage
root is modelled as a list of named directories in enumeration order, and the
external library calls that the filter and search code delegate to
(re.search, datetime.strptime, datetime.now) are threaded in as an explicit
environment `PyEnv`, so that every theorem quantifies over their behaviour.
-/

namespace Granola

/-- Python truthiness of an optional string field: an absent key or an empty
string is falsy; any other string is kept. -/
def truthy : Option String → Option String
  | some s => if s = "" then none else some s
  | none => none

/-- Singleton-or-empty list from an optional value. -/
def optList : Option String → List String
  | some s => [s]
  | none => []

/-- Python slicing s[:n] on code points. -/
def strTake (s : String) (n : Nat) : String := String.mk (s.data.take n)

/-- Python s.startswith(p). -/
def strStartsWith (s p : String) : Bool := p.data.isPrefixOf s.data

/-- Contiguous-sublist test on lists: true when the needle occurs as an infix
of the haystack. -/
def listContainsSeq (needle : List Char) : List Char → Bool
  | [] => needle.isEmpty
  | a :: t => needle.isPrefixOf (a :: t) || listContainsSeq needle t

/-- Python membership test: sub in s. -/
def strContains (s sub : String) : Bool := listContainsSeq sub.data s.data

/-- Python character class regex whitespace over ASCII. -/
def pyIsSpace (c : Char) : Bool :=
  c = ' ' || c = '\t' || c = '\n' || c = '\r' || c = '\x0b' || c = '\x0c'

/-- Python str.split() with no separator: split on whitespace runs, dropping
empty pieces. -/
def pySplit (s : String) : List String :=
  (s.split (fun c => pyIsSpace c)).filter (fun t => t ≠ "")

/-- Python str.lower(), character by character. -/
def pyLower (s : String) : String := String.mk (s.data.map Char.toLower)

/-- Python str.strip() with no argument: drop whitespace from both ends. -/
def pyStripWs (s : String) : String :=
  String.mk (((s.data.dropWhile pyIsSpace).reverse.dropWhile pyIsSpace).reverse)

-- ============================================================================
-- People helpers (extract_people, get_attendee_names, matches_participant)
-- ============================================================================

/-- One attendee entry of the people field: a JSON object with optional name
and email keys, or a bare string. -/
inductive Attendee where
  | obj (name : Option String) (email : Option String)
  | str (s : String)
deriving DecidableEq

/-- The creator object of the dict-shaped people field. -/
structure PersonRec where
  name : Option String := none
  email : Option String := none
deriving DecidableEq

/-- The two shapes of the people field: creator+attendees record, or a flat
participant list. -/
inductive People where
  | dict (creator : Option PersonRec) (attendees : List Attendee)
  | flat (entries : List Attendee)
deriving DecidableEq

/-- Identifiers contributed by one attendee entry in extract_people: the
truthy name and email fields of an object, or the bare string itself. -/
def attendeeIdents : Attendee → List String
  | .obj n e => optList (truthy n) ++ optList (truthy e)
  | .str s => [s]

/-- Embedding of extract_people: creator name and all participant
identifiers. -/
def extract_people : Option People → String × List String
  | none => ("Me", [])
  | some (.dict creator attendees) =>
    let c := creator.getD {}
    let creator_name := (truthy c.name).getD "Me"
    (creator_name,
      (optList (truthy c.name) ++ optList (truthy c.email))
        ++ attendees.flatMap attendeeIdents)
  | some (.flat entries) =>
    ("Me", entries.flatMap (fun a =>
      match a with
      | .obj n e => optList (truthy n) ++ optList (truthy e)
      | .str _ => []))

/-- Embedding of get_attendee_names: display names for transcript headers. -/
def get_attendee_names : Option People → List String
  | none => []
  | some (.dict creator attendees) =>
    optList (truthy (creator.getD {}).name)
      ++ attendees.filterMap (fun a =>
        match a with
        | .obj n _ => truthy n
        | .str s => some s)
  | some (.flat entries) =>
    entries.filterMap (fun a =>
      match a with
      | .obj n e => some (n.getD (e.getD "Unknown"))
      | .str _ => none)

/-- Embedding of matches_participant: case-insensitive substring test of the
query against every identifier. -/
def matches_participant (pd : Option People) (query : String) : Bool :=
  (extract_people pd).2.any (fun ident => strContains (pyLower ident) (pyLower query))

-- ============================================================================
-- Date helpers and the filter (parse_date, get_meeting_date, filter_meetings)
-- ============================================================================

/-- Ambient interpreters for the Python library calls the program delegates
to: re.search with IGNORECASE (as a boolean test), datetime.strptime with
format %Y-%m-%d returning a date (dates are modelled as integer ordinals, so
subtracting n models a timedelta of n days), and today's date. -/
structure PyEnv where
  reSearch : String → String → Bool
  strptimeDate : String → Option Int
  today : Int

/-- Embedding of parse_date: YYYY-MM-DD via strptime, or the relative forms
today, yesterday, last week, last month. -/
def parse_date (env : PyEnv) (s0 : String) : Option Int :=
  let s := pyStripWs (pyLower s0)
  if s = "today" then some env.today
  else if s = "yesterday" then some (env.today - 1)
  else
    let viaLast : Option Int :=
      if strStartsWith s "last" then
        let parts := pySplit s
        if parts.length ≥ 2 then
          let p1 := parts.getD 1 ""
          if strContains p1 "week" then some (env.today - 7)
          else if strContains p1 "month" then some (env.today - 30)
          else none
        else none
      else none
    match viaLast with
    | some d => some d
    | none => env.strptimeDate s

-- ============================================================================
-- Documents and persisted metadata
-- ============================================================================

/-- One transcript segment (a JSON object with optional keys). -/
structure Segment where
  text : Option String := none
  source : Option String := none
  speaker : Option String := none
deriving DecidableEq

/-- One chapter of the chapter-grouped transcript shape. -/
structure Chapter where
  title : Option String := none
  transcript : List Segment := []
deriving DecidableEq

/-- A remote meeting document. An id of "" models a missing or empty id (both
are falsy in the source); absent list-valued keys are modelled as []. -/
structure Doc where
  id : String := ""
  title : Option String := none
  created_at : Option String := none
  updated_at : Option String := none
  people : Option People := none
  transcript : List Segment := []
  chapters : List Chapter := []
  notes_markdown : Option String := none
  notes_plain : Option String := none
  google_calendar_event : Option String := none
deriving DecidableEq

/-- The persisted metadata.json summary written by save_meeting. -/
structure Metadata where
  id : String := ""
  title : Option String := none
  created_at : Option String := none
  updated_at : Option String := none
  people : Option People := none
  calendar_event : Option String := none
deriving DecidableEq

/-- Embedding of get_meeting_date: first 10 characters of created_at parsed
as a date, none when missing or unparseable. -/
def get_meeting_date (env : PyEnv) (m : Metadata) : Option Int :=
  let created := strTake ((m.created_at).getD "") 10
  if created = "" then none else env.strptimeDate created

/-- Exact-date factor of the filter loop. -/
def keepDate (td : Option Int) (md : Option Int) : Bool :=
  match td with
  | some t => match md with | some d => decide (d = t) | none => false
  | none => true

/-- Inclusive start-date factor of the filter loop. -/
def keepStart (ts : Option Int) (md : Option Int) : Bool :=
  match ts with
  | some t => match md with | some d => decide (t ≤ d) | none => false
  | none => true

/-- Inclusive end-date factor of the filter loop. -/
def keepEnd (te : Option Int) (md : Option Int) : Bool :=
  match te with
  | some t => match md with | some d => decide (d ≤ t) | none => false
  | none => true

/-- Title-regex factor of the filter loop (empty title treated as ""). -/
def keepTitle (env : PyEnv) (title : Option String) (m : Metadata) : Bool :=
  match truthy title with
  | some t => env.reSearch t ((m.title).getD "")
  | none => true

/-- Participant factor of the filter loop. -/
def keepPart (participant : Option String) (m : Metadata) : Bool :=
  match truthy participant with
  | some q => matches_participant m.people q
  | none => true

/-- Pre-parsed date target of one optional date argument: active only when the
argument is truthy and parses. -/
def dateTarget (env : PyEnv) (arg : Option String) : Option Int :=
  (truthy arg).bind (fun s => parse_date env s)

/-- Embedding of filter_meetings: date, range, title and participant
predicates combined with AND semantics over one pass. -/
def filter_meetings (env : PyEnv) (ms : List Metadata)
    (on_date start_date end_date title participant : Option String) :
    List Metadata :=
  let td := dateTarget env on_date
  let ts := dateTarget env start_date
  let te := dateTarget env end_date
  ms.filter (fun m =>
    keepDate td (get_meeting_date env m)
      && keepStart ts (get_meeting_date env m)
      && keepEnd te (get_meeting_date env m)
      && keepTitle env title m
      && keepPart participant m)

-- ============================================================================
-- Transcript formatting (format_transcript)
-- ============================================================================

/-- Header lines of format_transcript: title, date line, optional attendees
line, separator. -/
def transcriptHeaderLines (doc : Doc) : List String :=
  let created := (doc.created_at).getD ""
  let names := get_attendee_names doc.people
  ["# " ++ ((truthy doc.title).getD "Untitled Meeting"),
   "\n**Date:** " ++ (if created = "" then "Unknown" else strTake created 10)]
    ++ (if names = [] then [] else ["**Attendees:** " ++ String.intercalate ", " names])
    ++ ["\n---\n"]

/-- Embedding of format_transcript: header followed by either the flat
segment list (fetched segments, else the document transcript) or, when both
are empty, the chapter-grouped rendering. All segments are modelled as JSON
objects (the source skips non-dict entries of the flat list). -/
def format_transcript (doc : Doc) (transcript_data : Option (List Segment)) : String :=
  let creator_name := (extract_people doc.people).1
  let transcript :=
    match transcript_data with
    | some l => if l = [] then doc.transcript else l
    | none => doc.transcript
  let body :=
    if transcript = [] then
      doc.chapters.flatMap (fun ch =>
        (match truthy ch.title with
         | some t => ["\n## " ++ t ++ "\n"]
         | none => [])
          ++ ch.transcript.map (fun seg =>
            "**" ++ ((seg.speaker).getD "Unknown") ++ ":** " ++ ((seg.text).getD "") ++ "\n"))
    else
      transcript.filterMap (fun seg =>
        let source := (seg.source).getD ""
        let speaker :=
          if source = "microphone" then creator_name
          else if source = "system" then "Other"
          else (seg.speaker).getD "Unknown"
        let text := (seg.text).getD ""
        if text = "" then none
        else some ("**" ++ speaker ++ ":** " ++ text ++ "\n"))
  String.intercalate "\n" (transcriptHeaderLines doc ++ body)

-- ============================================================================
-- Storage (sanitize_filename, make_folder_name, find_meeting_dir, save_meeting)
-- ============================================================================

/-- The filesystem-hostile characters replaced by sanitize_filename. -/
def isHostile (c : Char) : Bool :=
  c = '<' || c = '>' || c = ':' || c = '"' || c = '/' || c = '\\' || c = '|' || c = '?' || c = '*'

/-- Characters collapsed into a single dash by sanitize_filename. -/
def isSpaceDash (c : Char) : Bool := pyIsSpace c || c = '-'

/-- Collapse every maximal run of whitespace and dash characters into one
dash. -/
def collapseRuns : List Char → List Char
  | [] => []
  | [c] => [if isSpaceDash c then '-' else c]
  | c1 :: c2 :: rest =>
    if isSpaceDash c1 && isSpaceDash c2 then collapseRuns (c2 :: rest)
    else (if isSpaceDash c1 then '-' else c1) :: collapseRuns (c2 :: rest)

/-- The strip set of sanitize_filename: dash and space. -/
def isDashSpace (c : Char) : Bool := c = '-' || c = ' '

/-- Python s.rstrip over a character class, on char lists. -/
def rstripChars (cs : List Char) (bad : Char → Bool) : List Char :=
  (cs.reverse.dropWhile bad).reverse

/-- Embedding of sanitize_filename: replace hostile characters by dash,
collapse whitespace and dash runs, strip dash and space from both ends,
truncate to max_length with a trailing strip, and fall back to Untitled. -/
def sanitize_filename (name : String) (max_length : Nat) : String :=
  let cs := name.data.map (fun c => if isHostile c then '-' else c)
  let cs := collapseRuns cs
  let cs := rstripChars (cs.dropWhile isDashSpace) isDashSpace
  let cs := if max_length < cs.length then rstripChars (cs.take max_length) isDashSpace else cs
  if cs = [] then "Untitled" else String.mk cs

/-- Embedding of make_folder_name: date prefix (or unknown-date) joined by an
underscore to the sanitized title (or Untitled). -/
def make_folder_name (doc : Doc) : String :=
  let created0 := strTake ((doc.created_at).getD "") 10
  let created := if created0 = "" then "unknown-date" else created0
  created ++ "_" ++ sanitize_filename ((truthy doc.title).getD "Untitled") 50

/-- The raw transcript payload written to transcript.json: fetched segments
if non-empty, else the document transcript if non-empty, else the chapters. -/
inductive RawTranscript where
  | segs (l : List Segment)
  | chaps (l : List Chapter)
deriving DecidableEq

/-- Files of one persisted meeting directory. The metadata and document
fields are none when the corresponding file is missing or fails to parse
(load_meeting_metadata and the document.json fallback both treat parse
failure as absence). -/
structure DirFiles where
  metadata : Option Metadata := none
  document : Option Doc := none
  transcriptMd : String := ""
  transcriptJson : RawTranscript := .segs []
  notes : Option String := none
deriving DecidableEq

/-- One child directory of the storage root. -/
structure Dir where
  name : String
  files : DirFiles
deriving DecidableEq

/-- Empty directory contents used when a fresh directory is created. -/
def dfltFiles : DirFiles := {}

/-- Default directory value for list indexing. -/
def dfltDir : Dir := ⟨"", dfltFiles⟩

/-- The storage root: its child directories in enumeration order. -/
abbrev Store := List Dir

/-- Index of the first list element satisfying a predicate. -/
def listFindIdx {α : Type} (p : α → Bool) : List α → Option Nat
  | [] => none
  | a :: l => if p a then some 0 else (listFindIdx p l).map (· + 1)

/-- Per-directory match test of find_meeting_dir, in source order: folder name
contains the id or starts with it, then persisted metadata id starts with the
id, then raw document id starts with the id. -/
def dirMatches (meeting_id : String) (d : Dir) : Bool :=
  strContains d.name meeting_id || strStartsWith d.name meeting_id
    || (match d.files.metadata with
        | some m => strStartsWith m.id meeting_id
        | none => false)
    || (match d.files.document with
        | some dc => strStartsWith dc.id meeting_id
        | none => false)

/-- Embedding of find_meeting_dir as an index into the store: first an exact
child of the given name, then one enumeration pass applying the per-directory
rules. -/
def findMeetingIdx (store : Store) (meeting_id : String) : Option Nat :=
  match listFindIdx (fun d => d.name = meeting_id) store with
  | some i => some i
  | none => listFindIdx (dirMatches meeting_id) store

/-- Embedding of find_meeting_dir: the resolved directory itself. -/
def find_meeting_dir (store : Store) (meeting_id : String) : Option Dir :=
  (findMeetingIdx store meeting_id).map (fun i => store.getD i dfltDir)

/-- The metadata summary save_meeting writes. -/
def metadataOf (doc : Doc) : Metadata :=
  { id := doc.id, title := doc.title, created_at := doc.created_at,
    updated_at := doc.updated_at, people := doc.people,
    calendar_event := doc.google_calendar_event }

/-- The raw transcript payload save_meeting writes. -/
def rawTranscriptOf (doc : Doc) (transcript_data : Option (List Segment)) : RawTranscript :=
  match transcript_data with
  | some l =>
    if l = [] then
      (if doc.transcript = [] then .chaps doc.chapters else .segs doc.transcript)
    else .segs l
  | none =>
    if doc.transcript = [] then .chaps doc.chapters else .segs doc.transcript

/-- The write step of save_meeting on one directory's files: metadata,
transcript.md, transcript.json and document.json are overwritten; notes.md is
written only when the document carries notes (markdown preferred over plain),
otherwise any previous notes file is left in place. -/
def writeFiles (doc : Doc) (transcript_data : Option (List Segment)) (old : DirFiles) : DirFiles :=
  { metadata := some (metadataOf doc),
    document := some doc,
    transcriptMd := format_transcript doc transcript_data,
    transcriptJson := rawTranscriptOf doc transcript_data,
    notes :=
      match truthy doc.notes_markdown with
      | some n => some n
      | none =>
        match truthy doc.notes_plain with
        | some n => some n
        | none => old.notes }

/-- Folder name chosen by save_meeting's create path: the slug, with the
first 8 id characters appended when the slug already names a directory. -/
def saveFolder (doc : Doc) (store : Store) : String :=
  let folder0 := make_folder_name doc
  if store.any (fun d => d.name = folder0) then folder0 ++ "_" ++ strTake doc.id 8
  else folder0

/-- Embedding of save_meeting: skip documents without an id; resolve an
existing directory and skip when not forced and the persisted metadata's
updated_at equals the incoming one; otherwise write into the resolved
directory, or create the saveFolder-named directory (mkdir with exist_ok
means an existing directory of that chosen name is written into). Returns
the written flag and the new store. -/
def save_meeting (doc : Doc) (store : Store) (transcript_data : Option (List Segment))
    (force : Bool) : Bool × Store :=
  if doc.id = "" then (false, store)
  else
    match findMeetingIdx store doc.id with
    | some i =>
      let d := store.getD i dfltDir
      let skipUnchanged : Bool :=
        !force && (match d.files.metadata with
                   | some m => decide (m.updated_at = doc.updated_at)
                   | none => false)
      if skipUnchanged then (false, store)
      else (true, store.set i ⟨d.name, writeFiles doc transcript_data d.files⟩)
    | none =>
      let folder := saveFolder doc store
      match listFindIdx (fun d => d.name = folder) store with
      | some j =>
        let d := store.getD j dfltDir
        (true, store.set j ⟨d.name, writeFiles doc transcript_data d.files⟩)
      | none => (true, store ++ [⟨folder, writeFiles doc transcript_data dfltFiles⟩])

-- ============================================================================
-- Search (cmd_search, per transcript file)
-- ============================================================================

/-- One search hit: 1-based line number, trimmed matching line, optional
context block. -/
structure SearchMatch where
  line : Nat
  text : String
  context : Option String
deriving DecidableEq

/-- Joined block of lines from index s (inclusive) to e (exclusive). -/
def sliceJoin (lines : List String) (s e : Nat) : String :=
  String.intercalate "\n" ((lines.drop s).take (e - s))

/-- Scan of the line list of one transcript file, carrying the 0-based index
of the current line; pmatch stands for the compiled case-insensitive regex
test. -/
def searchFileAux (pmatch : String → Bool) (ctx : Nat) (allLines : List String) :
    Nat → List String → List SearchMatch
  | _, [] => []
  | i, ln :: rest =>
    let tail := searchFileAux pmatch ctx allLines (i + 1) rest
    if pmatch ln then
      { line := i + 1, text := pyStripWs ln,
        context :=
          if 0 < ctx then
            some (sliceJoin allLines (i - ctx) (min allLines.length (i + ctx + 1)))
          else none } :: tail
    else tail

/-- Embedding of the per-file match loop of cmd_search. -/
def cmd_search_matches (pmatch : String → Bool) (ctx : Nat) (lines : List String) :
    List SearchMatch :=
  searchFileAux pmatch ctx lines 0 lines

/-- Option merge used to state predicate composition: the first argument when
present, else the second. -/
def mergeOpt (a b : Option String) : Option String :=
  match a with
  | some x => some x
  | none => b

-- ============================================================================
-- Claim-statement helpers and concrete instances
-- ============================================================================

/-- Slug shape stated over the pair the specification names: date prefix (or
unknown-date) and sanitized title (or Untitled). -/
def slugOfPair (created_at title : Option String) : String :=
  (if strTake (created_at.getD "") 10 = "" then "unknown-date" else strTake (created_at.getD "") 10)
    ++ "_" ++ sanitize_filename ((truthy title).getD "Untitled") 50

/-- Concrete document for the C1 witness. -/
def c1wDoc : Doc :=
  { id := "abc123", title := some "Team Sync", created_at := some "2025-01-15T10:00:00Z",
    updated_at := some "2025-01-15T10:00:00Z" }

/-- Concrete persisted metadata for the C1 witness. -/
def c1wMeta : Metadata :=
  { id := "abc123", title := some "Team Sync", created_at := some "2025-01-15T10:00:00Z",
    updated_at := some "2025-01-15T10:00:00Z" }

/-- Concrete store for the C1 witness. -/
def c1wStore : Store := [⟨"2025-01-15_Team-Sync", { metadata := some c1wMeta }⟩]

/-- Directory matched only through its metadata id for the C2 counterexample. -/
def c2DirA : Dir := ⟨"2025-zzz", { metadata := some { id := "abc99999" } }⟩

/-- Directory whose name contains the identifier for the C2 counterexample. -/
def c2DirB : Dir := ⟨"2025-abc-meeting", {}⟩

/-- Store enumerating the metadata-matched directory first, for C2. -/
def c2Store : Store := [c2DirA, c2DirB]

/-- Concrete document for the C3 witness. -/
def c3wDoc : Doc :=
  { id := "abc123", title := some "Team Sync", created_at := some "2025-01-15T10:00:00Z",
    people := some (.dict (some ⟨some "Alice", none⟩) [.obj (some "Bob") none]) }

/-- Concrete fetched segments for the C3 witness: microphone, system, labelled
and empty-text segments. -/
def c3wSegs : List Segment :=
  [{ source := some "microphone", text := some "hi" },
   { source := some "system", text := some "hello" },
   { speaker := some "Carol", text := some "yo" },
   { source := some "system", text := some "" }]

/-- Concrete document for the C4 witness. -/
def c4wDoc : Doc :=
  { id := "abc123", title := some "  He<>llo -- wor/ld  ",
    created_at := some "2025-01-15T10:00:00Z" }

/-- Concrete document for the C5 witness. -/
def c5wDoc : Doc :=
  { id := "abc123", title := some "New Title", created_at := some "2025-01-15T10:00:00Z",
    updated_at := some "v2" }

/-- Concrete store for the C5 witness: the directory keeps the slug of the
original title. -/
def c5wStore : Store :=
  [⟨"2025-01-15_Old-Title", { metadata := some { id := "abc123", updated_at := some "v1" } }⟩]

/-- First saved document of the C6 scenarios. -/
def c6d1 : Doc :=
  { id := "abc12345", title := some "T", created_at := some "2025-01-15T10:00:00Z",
    updated_at := some "u1" }

/-- Second document of the C6 counterexample: distinct id that is a prefix of
the first id, same slug. -/
def c6d2 : Doc :=
  { id := "abc1", title := some "T", created_at := some "2025-01-15T10:00:00Z",
    updated_at := some "u2" }

/-- Second document of the C6 witness: same slug, id unrelated to the first. -/
def c6g2 : Doc :=
  { id := "xyz98765", title := some "T", created_at := some "2025-01-15T10:00:00Z",
    updated_at := some "u2" }

/-- Concrete environment for the C7 witness: substring regex test, a toy
strptime table, a fixed today. -/
def c7wEnv : PyEnv :=
  { reSearch := fun pat s => strContains (pyLower s) (pyLower pat),
    strptimeDate := fun s => if s = "2025-01-15" then some 100 else none,
    today := 200 }

/-- Concrete metadata list for the C7 witness. -/
def c7wMs : List Metadata :=
  [{ id := "a", title := some "Standup Monday", created_at := some "2025-01-15T09:00:00Z",
     people := some (.dict (some ⟨some "Alice", some "alice@x.com"⟩) []) },
   { id := "b", title := some "Standup Tuesday",
     people := some (.dict (some ⟨some "Bob", none⟩) []) },
   { id := "c", title := some "Retro",
     people := some (.flat [.obj (some "Alice") none]) }]

/-- Concrete transcript lines for the C8 witness: ten lines with a match on
line 5, and a match on line 1. -/
def c8wLines : List String :=
  ["l1 hit", "l2", "l3", "l4", "l5 hit", "l6", "l7", "l8", "l9", "l10"]

/-- Concrete document for the C9 witness: chapters only, including an
empty-text segment. -/
def c9wDoc : Doc :=
  { id := "abc123", title := some "T",
    chapters := [{ title := some "Intro",
                   transcript := [{ speaker := some "S", text := some "hi" },
                                  { speaker := some "S", text := some "" }] },
                 { transcript := [{ text := some "tail" }] }] }

/-- Concrete document for the C10 witness. -/
def c10wDoc : Doc :=
  { id := "abc123", title := some "T", created_at := some "2025-01-15T10:00:00Z",
    updated_at := some "same" }

/-- Concrete store for the C10 witness: the resolved directory has an
unparseable metadata file but a matching raw document, and the persisted
updated_at can no longer be compared, so the save rewrites. -/
def c10wStore : Store :=
  [⟨"2025-01-15_T", { metadata := none, document := some c10wDoc }⟩]

-- ============================================================================
-- List infrastructure lemmas
-- ============================================================================

theorem getD_cons_zero {α : Type} (a : α) (l : List α) (d : α) : (a :: l).getD 0 d = a := rfl

theorem getD_cons_succ {α : Type} (a : α) (l : List α) (j : Nat) (d : α) :
    (a :: l).getD (j + 1) d = l.getD j d := rfl

theorem getD_mem {α : Type} (l : List α) (j : Nat) (d : α) (h : j < l.length) :
    l.getD j d ∈ l := by
  induction l generalizing j with
  | nil => simp at h
  | cons a t ih =>
    cases j with
    | zero => simp [getD_cons_zero]
    | succ j =>
      rw [getD_cons_succ]
      exact List.mem_cons_of_mem a (ih j (by simpa using Nat.lt_of_succ_lt_succ h))

theorem listFindIdx_eq_none_iff {α : Type} (p : α → Bool) (l : List α) :
    listFindIdx p l = none ↔ ∀ a ∈ l, p a = false := by
  induction l with
  | nil => simp [listFindIdx]
  | cons a t ih =>
    by_cases hpa : p a = true
    · simp [listFindIdx, hpa]
    · rw [Bool.not_eq_true] at hpa
      simp [listFindIdx, hpa, Option.map_eq_none', ih]

theorem listFindIdx_cons {α : Type} (p : α → Bool) (a : α) (t : List α) :
    listFindIdx p (a :: t) = if p a then some 0 else (listFindIdx p t).map (· + 1) := rfl

theorem listFindIdx_eq_some_iff {α : Type} (p : α → Bool) (l : List α) (d : α) (i : Nat) :
    listFindIdx p l = some i ↔
      i < l.length ∧ p (l.getD i d) = true ∧ ∀ j, j < i → p (l.getD j d) = false := by
  induction l generalizing i with
  | nil => simp [listFindIdx]
  | cons a t ih =>
    cases hpa : p a with
    | true =>
      rw [listFindIdx_cons, if_pos hpa]
      constructor
      · intro h
        injection h with h
        subst h
        exact ⟨Nat.succ_pos _, hpa, fun j hj => absurd hj (Nat.not_lt_zero j)⟩
      · rintro ⟨-, -, hlt⟩
        cases i with
        | zero => rfl
        | succ i =>
          have := hlt 0 (Nat.succ_pos i)
          rw [getD_cons_zero, hpa] at this
          exact absurd this (by simp)
    | false =>
      rw [listFindIdx_cons, if_neg (by simp [hpa])]
      cases i with
      | zero =>
        constructor
        · intro h
          cases hk : listFindIdx p t with
          | none => rw [hk] at h; exact absurd h (by simp)
          | some k => rw [hk] at h; exact absurd h (by simp)
        · rintro ⟨-, h2, -⟩
          rw [getD_cons_zero, hpa] at h2
          exact absurd h2 (by simp)
      | succ i =>
        constructor
        · intro h
          cases hk : listFindIdx p t with
          | none => rw [hk] at h; exact absurd h (by simp)
          | some k =>
            rw [hk, Option.map_some'] at h
            have hki : k = i := by
              have := Option.some.inj h
              omega
            subst hki
            rcases (ih k).mp hk with ⟨h1, h2, h3⟩
            refine ⟨Nat.succ_lt_succ h1, by rwa [getD_cons_succ], ?_⟩
            intro j hj
            cases j with
            | zero => rw [getD_cons_zero]; exact hpa
            | succ j => rw [getD_cons_succ]; exact h3 j (by omega)
        · rintro ⟨h1, h2, h3⟩
          rw [getD_cons_succ] at h2
          have hrec : listFindIdx p t = some i := by
            refine (ih i).mpr ⟨Nat.lt_of_succ_lt_succ h1, h2, ?_⟩
            intro j hj
            have := h3 (j + 1) (by omega)
            rwa [getD_cons_succ] at this
          rw [hrec]
          rfl

theorem listFindIdx_set_invar {α : Type} (p : α → Bool) (l : List α) (i : Nat) (b d : α)
    (hi : i < l.length) (hpb : p b = p (l.getD i d)) :
    listFindIdx p (l.set i b) = listFindIdx p l := by
  induction l generalizing i with
  | nil => simp at hi
  | cons a t ih =>
    cases i with
    | zero =>
      rw [getD_cons_zero] at hpb
      simp only [List.set_cons_zero, listFindIdx, hpb]
    | succ i =>
      rw [getD_cons_succ] at hpb
      simp only [List.set_cons_succ, listFindIdx]
      rw [ih i (by simpa using Nat.lt_of_succ_lt_succ hi) hpb]

theorem getD_set_self {α : Type} (l : List α) (i : Nat) (b d : α) (hi : i < l.length) :
    (l.set i b).getD i d = b := by
  induction l generalizing i with
  | nil => simp at hi
  | cons a t ih =>
    cases i with
    | zero => rfl
    | succ i =>
      simp only [List.set_cons_succ, getD_cons_succ]
      exact ih i (by simpa using Nat.lt_of_succ_lt_succ hi)

theorem getD_set_ne {α : Type} (l : List α) (i j : Nat) (b d : α) (h : j ≠ i) :
    (l.set i b).getD j d = l.getD j d := by
  induction l generalizing i j with
  | nil => simp [List.set_nil]
  | cons a t ih =>
    cases i with
    | zero =>
      cases j with
      | zero => exact absurd rfl h
      | succ j => rfl
    | succ i =>
      cases j with
      | zero => rfl
      | succ j =>
        simp only [List.set_cons_succ, getD_cons_succ]
        exact ih i j (by omega)

theorem listFindIdx_set_first {α : Type} (p : α → Bool) (l : List α) (i : Nat) (b d : α)
    (hi : i < l.length) (hpb : p b = true)
    (hlt : ∀ j, j < i → p (l.getD j d) = false) :
    listFindIdx p (l.set i b) = some i := by
  rw [listFindIdx_eq_some_iff p _ d]
  refine ⟨by simpa using hi, ?_, ?_⟩
  · rw [getD_set_self l i b d hi, hpb]
  · intro j hj
    rw [getD_set_ne l i j b d (by omega)]
    exact hlt j hj

theorem listFindIdx_append_one {α : Type} (p : α → Bool) (l : List α) (b : α) :
    listFindIdx p (l ++ [b]) =
      match listFindIdx p l with
      | some i => some i
      | none => if p b then some l.length else none := by
  induction l with
  | nil => cases hpb : p b <;> simp [listFindIdx, hpb]
  | cons a t ih =>
    rw [List.cons_append, listFindIdx_cons, listFindIdx_cons]
    cases hpa : p a with
    | true => simp
    | false =>
      rw [if_neg (by simp), if_neg (by simp), ih]
      cases h : listFindIdx p t with
      | some i => simp
      | none =>
        cases hpb : p b <;> simp [List.length_cons, hpb]

theorem getD_append_right_len {α : Type} (l : List α) (b d : α) :
    (l ++ [b]).getD l.length d = b := by
  induction l with
  | nil => rfl
  | cons a t ih =>
    rw [List.cons_append, List.length_cons, getD_cons_succ]
    exact ih

theorem map_set_invar {α β : Type} (g : α → β) (l : List α) (i : Nat) (b d : α)
    (hi : i < l.length) (hgb : g b = g (l.getD i d)) :
    (l.set i b).map g = l.map g := by
  induction l generalizing i with
  | nil => simp at hi
  | cons a t ih =>
    cases i with
    | zero =>
      rw [getD_cons_zero] at hgb
      simp [List.set_cons_zero, hgb]
    | succ i =>
      rw [getD_cons_succ] at hgb
      simp only [List.set_cons_succ, List.map_cons, List.cons.injEq, true_and]
      exact ih i (by simpa using Nat.lt_of_succ_lt_succ hi) hgb

theorem isPrefixOf_self {α : Type} [BEq α] [LawfulBEq α] (l : List α) : l.isPrefixOf l = true := by
  induction l with
  | nil => rfl
  | cons a t ih => simp [List.isPrefixOf, ih]

theorem strStartsWith_self (s : String) : strStartsWith s s = true :=
  isPrefixOf_self s.data

-- ============================================================================
-- save_meeting path characterizations
-- ============================================================================

theorem findMeetingIdx_lt (store : Store) (meeting_id : String) (i : Nat)
    (h : findMeetingIdx store meeting_id = some i) : i < store.length := by
  unfold findMeetingIdx at h
  cases hP : listFindIdx (fun d => d.name = meeting_id) store with
  | some k =>
    rw [hP] at h
    cases h
    exact ((listFindIdx_eq_some_iff _ _ dfltDir _).mp hP).1
  | none =>
    rw [hP] at h
    exact ((listFindIdx_eq_some_iff _ _ dfltDir _).mp h).1

theorem save_skip (doc : Doc) (store : Store) (tdata : Option (List Segment)) (i : Nat)
    (m : Metadata) (hid : doc.id ≠ "") (hfind : findMeetingIdx store doc.id = some i)
    (hm : (store.getD i dfltDir).files.metadata = some m)
    (hu : m.updated_at = doc.updated_at) :
    save_meeting doc store tdata false = (false, store) := by
  rw [List.getD_eq_getElem?_getD] at hm
  simp [save_meeting, hid, hfind, hm, hu]

theorem save_write_existing (doc : Doc) (store : Store) (tdata : Option (List Segment)) (i : Nat)
    (hid : doc.id ≠ "") (hfind : findMeetingIdx store doc.id = some i)
    (hns : (match (store.getD i dfltDir).files.metadata with
            | some m => decide (m.updated_at = doc.updated_at)
            | none => false) = false) :
    save_meeting doc store tdata false
      = (true, store.set i ⟨(store.getD i dfltDir).name, writeFiles doc tdata (store.getD i dfltDir).files⟩) := by
  rw [List.getD_eq_getElem?_getD] at hns
  simp [save_meeting, hid, hfind, hns]

theorem save_create_set (doc : Doc) (store : Store) (tdata : Option (List Segment)) (j : Nat)
    (hid : doc.id ≠ "") (hfind : findMeetingIdx store doc.id = none)
    (hj : listFindIdx (fun d => d.name = saveFolder doc store) store = some j) :
    save_meeting doc store tdata false
      = (true, store.set j ⟨(store.getD j dfltDir).name, writeFiles doc tdata (store.getD j dfltDir).files⟩) := by
  simp [save_meeting, hid, hfind, hj]

theorem save_create_append (doc : Doc) (store : Store) (tdata : Option (List Segment))
    (hid : doc.id ≠ "") (hfind : findMeetingIdx store doc.id = none)
    (hnof : listFindIdx (fun d => d.name = saveFolder doc store) store = none) :
    save_meeting doc store tdata false
      = (true, store ++ [⟨saveFolder doc store, writeFiles doc tdata dfltFiles⟩]) := by
  simp [save_meeting, hid, hfind, hnof]

theorem dirMatches_writeFiles (doc : Doc) (tdata : Option (List Segment)) (nm : String)
    (old : DirFiles) : dirMatches doc.id ⟨nm, writeFiles doc tdata old⟩ = true := by
  simp [dirMatches, writeFiles, metadataOf, strStartsWith_self]

theorem findMeetingIdx_none_split (store : Store) (meeting_id : String)
    (h : findMeetingIdx store meeting_id = none) :
    listFindIdx (fun d => d.name = meeting_id) store = none
      ∧ listFindIdx (dirMatches meeting_id) store = none := by
  unfold findMeetingIdx at h
  cases hP : listFindIdx (fun d => d.name = meeting_id) store with
  | some k => rw [hP] at h; exact absurd h (by simp)
  | none => rw [hP] at h; exact ⟨rfl, h⟩

theorem findMeetingIdx_after_write (doc : Doc) (store : Store) (tdata : Option (List Segment))
    (i : Nat) (hfind : findMeetingIdx store doc.id = some i) :
    findMeetingIdx (store.set i ⟨(store.getD i dfltDir).name, writeFiles doc tdata (store.getD i dfltDir).files⟩) doc.id = some i := by
  have hlen : i < store.length := findMeetingIdx_lt store doc.id i hfind
  have hinv : listFindIdx (fun d => d.name = doc.id)
      (store.set i ⟨(store.getD i dfltDir).name, writeFiles doc tdata (store.getD i dfltDir).files⟩)
      = listFindIdx (fun d => d.name = doc.id) store :=
    listFindIdx_set_invar _ store i _ dfltDir hlen rfl
  unfold findMeetingIdx at hfind ⊢
  cases hP : listFindIdx (fun d => d.name = doc.id) store with
  | some k =>
    rw [hP] at hfind
    rw [hinv, hP]
    exact hfind
  | none =>
    rw [hP] at hfind
    rw [hinv, hP]
    exact listFindIdx_set_first _ store i _ dfltDir hlen
      (dirMatches_writeFiles doc tdata _ _)
      (fun j hj => ((listFindIdx_eq_some_iff _ _ dfltDir _).mp hfind).2.2 j hj)

theorem save_meeting_roundtrip (doc : Doc) (store : Store) (t1 t2 : Option (List Segment)) :
    save_meeting doc (save_meeting doc store t1 false).2 t2 false
      = (false, (save_meeting doc store t1 false).2) := by
  by_cases hid : doc.id = ""
  · simp [save_meeting, hid]
  · cases hfind : findMeetingIdx store doc.id with
    | some i =>
      have hlen : i < store.length := findMeetingIdx_lt store doc.id i hfind
      cases hskip : (match (store.getD i dfltDir).files.metadata with
                     | some m => decide (m.updated_at = doc.updated_at)
                     | none => false) with
      | true =>
        obtain ⟨m, hm, hu⟩ : ∃ m, (store.getD i dfltDir).files.metadata = some m
            ∧ m.updated_at = doc.updated_at := by
          cases hmm : (store.getD i dfltDir).files.metadata with
          | none => rw [hmm] at hskip; exact absurd hskip (by simp)
          | some m => rw [hmm] at hskip; exact ⟨m, rfl, of_decide_eq_true hskip⟩
        rw [save_skip doc store t1 i m hid hfind hm hu]
        exact save_skip doc store t2 i m hid hfind hm hu
      | false =>
        rw [save_write_existing doc store t1 i hid hfind hskip]
        refine save_skip doc _ t2 i (metadataOf doc) hid ?_ ?_ rfl
        · exact findMeetingIdx_after_write doc store t1 i hfind
        · rw [getD_set_self store i _ dfltDir hlen]
          rfl
    | none =>
      obtain ⟨hP, hM⟩ := findMeetingIdx_none_split store doc.id hfind
      have hMfalse : ∀ j, j < store.length → dirMatches doc.id (store.getD j dfltDir) = false :=
        fun j hj => ((listFindIdx_eq_none_iff _ _).mp hM) _ (getD_mem store j dfltDir hj)
      cases hJ : listFindIdx (fun d => d.name = saveFolder doc store) store with
      | some j =>
        have hlenj : j < store.length := ((listFindIdx_eq_some_iff _ _ dfltDir _).mp hJ).1
        rw [save_create_set doc store t1 j hid hfind hJ]
        refine save_skip doc _ t2 j (metadataOf doc) hid ?_ ?_ rfl
        · have hPn : listFindIdx (fun d => d.name = doc.id)
              (store.set j ⟨(store.getD j dfltDir).name, writeFiles doc t1 (store.getD j dfltDir).files⟩)
              = none := by
            rw [listFindIdx_set_invar (fun (d : Dir) => decide (d.name = doc.id)) store j
              (⟨(store.getD j dfltDir).name, writeFiles doc t1 (store.getD j dfltDir).files⟩ : Dir)
              dfltDir hlenj rfl]
            exact hP
          have hMn : listFindIdx (dirMatches doc.id)
              (store.set j ⟨(store.getD j dfltDir).name, writeFiles doc t1 (store.getD j dfltDir).files⟩)
              = some j :=
            listFindIdx_set_first _ store j _ dfltDir hlenj
              (dirMatches_writeFiles doc t1 _ _) (fun j' hj' => hMfalse j' (by omega))
          unfold findMeetingIdx
          rw [hPn, hMn]
        · rw [getD_set_self store j _ dfltDir hlenj]
          rfl
      | none =>
        rw [save_create_append doc store t1 hid hfind hJ]
        have hApp1 : listFindIdx (fun d => d.name = doc.id)
            (store ++ [⟨saveFolder doc store, writeFiles doc t1 dfltFiles⟩])
            = if saveFolder doc store = doc.id then some store.length else none := by
          rw [listFindIdx_append_one, hP]
          by_cases hfd : saveFolder doc store = doc.id
          · simp [hfd]
          · simp [hfd]
        have hApp2 : listFindIdx (dirMatches doc.id)
            (store ++ [⟨saveFolder doc store, writeFiles doc t1 dfltFiles⟩])
            = some store.length := by
          rw [listFindIdx_append_one, hM, dirMatches_writeFiles doc t1 _ _]
          simp
        have hgetlast : (store ++ [(⟨saveFolder doc store, writeFiles doc t1 dfltFiles⟩ : Dir)]).getD store.length dfltDir
            = (⟨saveFolder doc store, writeFiles doc t1 dfltFiles⟩ : Dir) :=
          getD_append_right_len store _ dfltDir
        by_cases hfd : saveFolder doc store = doc.id
        · refine save_skip doc _ t2 store.length (metadataOf doc) hid ?_ ?_ rfl
          · unfold findMeetingIdx
            rw [hApp1, if_pos hfd]
          · rw [hgetlast]
            rfl
        · refine save_skip doc _ t2 store.length (metadataOf doc) hid ?_ ?_ rfl
          · unfold findMeetingIdx
            rw [hApp1, if_neg hfd, hApp2]
          · rw [hgetlast]
            rfl

theorem save_existing_cases (doc : Doc) (store : Store) (tdata : Option (List Segment))
    (force : Bool) (i : Nat) (hid : doc.id ≠ "")
    (hfind : findMeetingIdx store doc.id = some i) :
    save_meeting doc store tdata force = (false, store)
      ∨ save_meeting doc store tdata force
          = (true, store.set i ⟨(store.getD i dfltDir).name, writeFiles doc tdata (store.getD i dfltDir).files⟩) := by
  cases hskip : (!force && (match (store.getD i dfltDir).files.metadata with
                            | some m => decide (m.updated_at = doc.updated_at)
                            | none => false)) with
  | true =>
    left
    rw [List.getD_eq_getElem?_getD] at hskip
    simp [save_meeting, hid, hfind, hskip]
  | false =>
    right
    rw [List.getD_eq_getElem?_getD] at hskip
    simp [save_meeting, hid, hfind, hskip]

-- ============================================================================
-- Claim theorems
-- ============================================================================

/-- Claim C1: when the resolved existing directory's persisted metadata
parses and its updated_at equals the incoming document's updated_at, a save
with force unset returns skipped and leaves every directory file unchanged
(the returned store is the old store); and for any store, a second save of an
unchanged document immediately after a first returns skipped and changes
nothing, so an initial write is followed by exactly one skip. -/
theorem c1_unchanged_save_skips (doc : Doc) (store : Store) (tdata : Option (List Segment))
    (i : Nat) (m : Metadata) (hid : doc.id ≠ "")
    (hfind : findMeetingIdx store doc.id = some i)
    (hm : (store.getD i dfltDir).files.metadata = some m)
    (hu : m.updated_at = doc.updated_at) :
    save_meeting doc store tdata false = (false, store)
      ∧ ∀ (store0 : Store) (t1 t2 : Option (List Segment)),
          save_meeting doc (save_meeting doc store0 t1 false).2 t2 false
            = (false, (save_meeting doc store0 t1 false).2) :=
  ⟨save_skip doc store tdata i m hid hfind hm hu,
   fun store0 t1 t2 => save_meeting_roundtrip doc store0 t1 t2⟩

/-- Witness for C1 at a concrete one-directory store holding the unchanged
document. -/
theorem c1_unchanged_save_skips_witness :
    (c1wDoc.id ≠ "" ∧ findMeetingIdx c1wStore c1wDoc.id = some 0
        ∧ (c1wStore.getD 0 dfltDir).files.metadata = some c1wMeta
        ∧ c1wMeta.updated_at = c1wDoc.updated_at)
      ∧ (save_meeting c1wDoc c1wStore none false = (false, c1wStore)
          ∧ ∀ (store0 : Store) (t1 t2 : Option (List Segment)),
              save_meeting c1wDoc (save_meeting c1wDoc store0 t1 false).2 t2 false
                = (false, (save_meeting c1wDoc store0 t1 false).2)) :=
  ⟨⟨by decide, by decide, by decide, by decide⟩,
   c1_unchanged_save_skips c1wDoc c1wStore none 0 c1wMeta (by decide) (by decide) (by decide)
     (by decide)⟩

/-- Claim C5: once a save resolves an existing directory for the document's
id, the save never renames or creates any directory (the directory-name list
is unchanged), and it either skips or writes its files into that same
resolved directory, regardless of the incoming title. -/
theorem c5_directory_identity_sticky (doc : Doc) (store : Store)
    (tdata : Option (List Segment)) (force : Bool) (i : Nat) (hid : doc.id ≠ "")
    (hfind : findMeetingIdx store doc.id = some i) :
    ((save_meeting doc store tdata force).2).map (fun d => d.name)
        = store.map (fun d => d.name)
      ∧ (save_meeting doc store tdata force = (false, store)
          ∨ save_meeting doc store tdata force
              = (true, store.set i ⟨(store.getD i dfltDir).name, writeFiles doc tdata (store.getD i dfltDir).files⟩)) := by
  have hlen : i < store.length := findMeetingIdx_lt store doc.id i hfind
  have hcases := save_existing_cases doc store tdata force i hid hfind
  refine ⟨?_, hcases⟩
  rcases hcases with h | h
  · rw [h]
  · rw [h]
    exact map_set_invar (fun (d : Dir) => d.name) store i
      (⟨(store.getD i dfltDir).name, writeFiles doc tdata (store.getD i dfltDir).files⟩ : Dir)
      dfltDir hlen rfl

/-- Witness for C5: a save carrying a new title still writes into the
directory named after the old title. -/
theorem c5_directory_identity_sticky_witness :
    (c5wDoc.id ≠ "" ∧ findMeetingIdx c5wStore c5wDoc.id = some 0)
      ∧ (((save_meeting c5wDoc c5wStore none false).2).map (fun d => d.name)
            = c5wStore.map (fun d => d.name)
          ∧ (save_meeting c5wDoc c5wStore none false = (false, c5wStore)
              ∨ save_meeting c5wDoc c5wStore none false
                  = (true, c5wStore.set 0 ⟨(c5wStore.getD 0 dfltDir).name, writeFiles c5wDoc none (c5wStore.getD 0 dfltDir).files⟩))) :=
  ⟨⟨by decide, by decide⟩,
   c5_directory_identity_sticky c5wDoc c5wStore none false 0 (by decide) (by decide)⟩

/-- Claim C10: when the resolver finds an existing directory whose metadata
file is missing or unparseable, a save with force unset does not skip: it
returns written and overwrites the directory's metadata, document,
transcript.md and transcript.json files. -/
theorem c10_unparseable_metadata_rewrites (doc : Doc) (store : Store)
    (tdata : Option (List Segment)) (i : Nat) (hid : doc.id ≠ "")
    (hfind : findMeetingIdx store doc.id = some i)
    (hmeta : (store.getD i dfltDir).files.metadata = none) :
    save_meeting doc store tdata false
        = (true, store.set i ⟨(store.getD i dfltDir).name, writeFiles doc tdata (store.getD i dfltDir).files⟩)
      ∧ (writeFiles doc tdata (store.getD i dfltDir).files).metadata = some (metadataOf doc)
      ∧ (writeFiles doc tdata (store.getD i dfltDir).files).document = some doc
      ∧ (writeFiles doc tdata (store.getD i dfltDir).files).transcriptMd
          = format_transcript doc tdata
      ∧ (writeFiles doc tdata (store.getD i dfltDir).files).transcriptJson
          = rawTranscriptOf doc tdata :=
  ⟨save_write_existing doc store tdata i hid hfind (by rw [hmeta]), rfl, rfl, rfl, rfl⟩

/-- Witness for C10: a directory resolved through its raw document, with no
parseable metadata, is rewritten even though the document is unchanged. -/
theorem c10_unparseable_metadata_rewrites_witness :
    (c10wDoc.id ≠ "" ∧ findMeetingIdx c10wStore c10wDoc.id = some 0
        ∧ (c10wStore.getD 0 dfltDir).files.metadata = none)
      ∧ (save_meeting c10wDoc c10wStore none false
            = (true, c10wStore.set 0 ⟨(c10wStore.getD 0 dfltDir).name, writeFiles c10wDoc none (c10wStore.getD 0 dfltDir).files⟩)
          ∧ (writeFiles c10wDoc none (c10wStore.getD 0 dfltDir).files).metadata
              = some (metadataOf c10wDoc)
          ∧ (writeFiles c10wDoc none (c10wStore.getD 0 dfltDir).files).document = some c10wDoc
          ∧ (writeFiles c10wDoc none (c10wStore.getD 0 dfltDir).files).transcriptMd
              = format_transcript c10wDoc none
          ∧ (writeFiles c10wDoc none (c10wStore.getD 0 dfltDir).files).transcriptJson
              = rawTranscriptOf c10wDoc none) :=
  ⟨⟨by decide, by decide, by decide⟩,
   c10_unparseable_metadata_rewrites c10wDoc c10wStore none 0 (by decide) (by decide) (by decide)⟩

theorem str_ne_append_underscore (s t : String) : s ≠ s ++ "_" ++ t := by
  intro h
  have hlen : s.length = (s ++ "_" ++ t).length := congrArg String.length h
  rw [String.length_append, String.length_append] at hlen
  have h1 : ("_" : String).length = 1 := rfl
  omega

/-- Claim C2 counterexample: with identifier abc, the store enumerates first
a directory matching only by metadata id prefix and then a directory whose
name contains abc; resolve returns the first, not the substring match, so the
four rules are not applied in strict priority order over the whole listing. -/
theorem c2_resolver_priority_counterexample :
    find_meeting_dir c2Store "abc" = some c2DirA
      ∧ strContains c2DirA.name "abc" = false
      ∧ strStartsWith c2DirA.name "abc" = false
      ∧ (match c2DirA.files.metadata with
         | some m => strStartsWith m.id "abc"
         | none => false) = true
      ∧ strContains c2DirB.name "abc" = true
      ∧ c2Store = [c2DirA, c2DirB]
      ∧ c2DirA ≠ c2DirB := by decide

/-- Claim C2 as amended: the exact-name rule is checked over the whole
listing first; the remaining three rules are tested together on each
directory in enumeration order, and the first directory matching any of them
wins, so an earlier directory matching only by metadata id prefix beats a
later one matching by name substring. -/
theorem c2_resolver_enumeration_order (store : Store) (meeting_id : String) (i : Nat)
    (h1 : ∀ d ∈ store, d.name ≠ meeting_id)
    (h2 : i < store.length)
    (h3 : dirMatches meeting_id (store.getD i dfltDir) = true)
    (h4 : ∀ j, j < i → dirMatches meeting_id (store.getD j dfltDir) = false) :
    find_meeting_dir store meeting_id = some (store.getD i dfltDir) := by
  have hP : listFindIdx (fun d => d.name = meeting_id) store = none :=
    (listFindIdx_eq_none_iff _ _).mpr (fun d hd => by simp [h1 d hd])
  have hM : listFindIdx (dirMatches meeting_id) store = some i :=
    (listFindIdx_eq_some_iff _ _ dfltDir _).mpr ⟨h2, h3, h4⟩
  unfold find_meeting_dir findMeetingIdx
  rw [hP, hM]
  rfl

/-- Witness for the amended C2 at the concrete two-directory store. -/
theorem c2_resolver_enumeration_order_witness :
    ((∀ d ∈ c2Store, d.name ≠ "abc") ∧ 0 < c2Store.length
        ∧ dirMatches "abc" (c2Store.getD 0 dfltDir) = true)
      ∧ find_meeting_dir c2Store "abc" = some (c2Store.getD 0 dfltDir) :=
  ⟨⟨by decide, by decide, by decide⟩,
   c2_resolver_enumeration_order c2Store "abc" 0 (by decide) (by decide) (by decide)
     (fun j hj => absurd hj (Nat.not_lt_zero j))⟩

/-- Claim C6 counterexample: two documents with distinct ids and equal slugs,
where the second id is a prefix of the first; saving both into an empty store
leaves a single directory, because the resolver treats the first directory as
the second document's existing directory and overwrites it. -/
theorem c6_collision_suffix_counterexample :
    make_folder_name c6d1 = make_folder_name c6d2
      ∧ c6d1.id ≠ c6d2.id ∧ c6d1.id ≠ "" ∧ c6d2.id ≠ ""
      ∧ ((save_meeting c6d2 (save_meeting c6d1 [] none false).2 none false).2).map (fun d => d.name)
          = [make_folder_name c6d1] := by decide

/-- Claim C6 as amended: two documents with distinct ids computing the same
slug produce, from an empty store, two distinct directories, the second
suffixed with the first 8 characters of its id, provided the resolver finds
no existing directory for the second id after the first save (as when neither
id occurs in or prefixes the other's directory name or id). -/
theorem c6_collision_suffix (d1 d2 : Doc) (t1 t2 : Option (List Segment))
    (h1 : d1.id ≠ "") (h2 : d2.id ≠ "")
    (hslug : make_folder_name d1 = make_folder_name d2)
    (hres : findMeetingIdx (save_meeting d1 [] t1 false).2 d2.id = none) :
    ((save_meeting d2 (save_meeting d1 [] t1 false).2 t2 false).2).map (fun d => d.name)
        = [make_folder_name d1, make_folder_name d2 ++ "_" ++ strTake d2.id 8]
      ∧ make_folder_name d1 ≠ make_folder_name d2 ++ "_" ++ strTake d2.id 8 := by
  have hs1 : (save_meeting d1 [] t1 false).2
      = [(⟨make_folder_name d1, writeFiles d1 t1 dfltFiles⟩ : Dir)] := by
    rw [save_create_append d1 [] t1 h1 rfl rfl]
    exact rfl
  rw [hs1] at hres ⊢
  have hfold : saveFolder d2 [(⟨make_folder_name d1, writeFiles d1 t1 dfltFiles⟩ : Dir)]
      = make_folder_name d2 ++ "_" ++ strTake d2.id 8 := by
    simp [saveFolder, hslug]
  have hnof : listFindIdx
      (fun (d : Dir) => d.name = saveFolder d2 [(⟨make_folder_name d1, writeFiles d1 t1 dfltFiles⟩ : Dir)])
      [(⟨make_folder_name d1, writeFiles d1 t1 dfltFiles⟩ : Dir)] = none := by
    rw [listFindIdx_eq_none_iff]
    intro a ha
    rw [List.mem_singleton] at ha
    subst ha
    simp only [hfold]
    have : make_folder_name d1 ≠ make_folder_name d2 ++ "_" ++ strTake d2.id 8 := by
      rw [hslug]
      exact str_ne_append_underscore _ _
    simp [this]
  have hs2 := save_create_append d2 [(⟨make_folder_name d1, writeFiles d1 t1 dfltFiles⟩ : Dir)] t2 h2 hres hnof
  rw [hs2]
  refine ⟨?_, ?_⟩
  · simp [hfold]
  · rw [hslug]
    exact str_ne_append_underscore _ _

/-- Witness for the amended C6: equal slugs, unrelated ids, two directories
with the second suffixed. -/
theorem c6_collision_suffix_witness :
    (c6d1.id ≠ "" ∧ c6g2.id ≠ "" ∧ make_folder_name c6d1 = make_folder_name c6g2
        ∧ findMeetingIdx (save_meeting c6d1 [] none false).2 c6g2.id = none)
      ∧ (((save_meeting c6g2 (save_meeting c6d1 [] none false).2 none false).2).map (fun d => d.name)
            = [make_folder_name c6d1, make_folder_name c6g2 ++ "_" ++ strTake c6g2.id 8]
          ∧ make_folder_name c6d1 ≠ make_folder_name c6g2 ++ "_" ++ strTake c6g2.id 8) :=
  ⟨⟨by decide, by decide, by decide, by decide⟩,
   c6_collision_suffix c6d1 c6g2 none none (by decide) (by decide) (by decide) (by decide)⟩

/-- Claim C3: whenever the fetched segment list is non-empty or the document
transcript is non-empty, format_transcript renders that flat list after the
header: every segment with non-empty text yields one speaker-labelled line,
where the label is the creator's name for source microphone, the fixed string
Other for source system, and otherwise the segment's speaker field or
Unknown; empty-text segments yield no line. -/
theorem c3_flat_transcript_rendering (doc : Doc) (tdata : Option (List Segment))
    (h : tdata.getD [] ≠ [] ∨ doc.transcript ≠ []) :
    format_transcript doc tdata =
      String.intercalate "\n" (transcriptHeaderLines doc ++
        (if tdata.getD [] = [] then doc.transcript else tdata.getD []).filterMap (fun seg =>
          if (seg.text).getD "" = "" then none
          else some ("**" ++
            (if (seg.source).getD "" = "microphone" then (extract_people doc.people).1
             else if (seg.source).getD "" = "system" then "Other"
             else (seg.speaker).getD "Unknown")
            ++ ":** " ++ ((seg.text).getD "") ++ "\n"))) := by
  cases tdata with
  | none =>
    have hc : doc.transcript ≠ [] := by
      rcases h with h | h
      · exact absurd rfl h
      · exact h
    simp [format_transcript, hc]
  | some l =>
    by_cases hl : l = []
    · subst hl
      have hc : doc.transcript ≠ [] := by
        rcases h with h | h
        · exact absurd rfl h
        · exact h
      simp [format_transcript, hc]
    · simp [format_transcript, hl]

/-- Witness for C3 on segments exercising every label rule and an empty-text
segment. -/
theorem c3_flat_transcript_rendering_witness :
    ((some c3wSegs).getD [] ≠ [] ∨ c3wDoc.transcript ≠ [])
      ∧ format_transcript c3wDoc (some c3wSegs) =
          String.intercalate "\n" (transcriptHeaderLines c3wDoc ++
            (if (some c3wSegs).getD [] = [] then c3wDoc.transcript else (some c3wSegs).getD []).filterMap (fun seg =>
              if (seg.text).getD "" = "" then none
              else some ("**" ++
                (if (seg.source).getD "" = "microphone" then (extract_people c3wDoc.people).1
                 else if (seg.source).getD "" = "system" then "Other"
                 else (seg.speaker).getD "Unknown")
                ++ ":** " ++ ((seg.text).getD "") ++ "\n")))
      ∧ format_transcript c3wDoc (some c3wSegs) =
          "# Team Sync\n\n**Date:** 2025-01-15\n**Attendees:** Alice, Bob\n\n---\n\n**Alice:** hi\n\n**Other:** hello\n\n**Carol:** yo\n" :=
  ⟨Or.inl (by decide),
   c3_flat_transcript_rendering c3wDoc (some c3wSegs) (Or.inl (by decide)),
   by decide⟩

/-- Claim C9: when the fetched segment list and the document transcript are
both empty, format_transcript renders the chapter-grouped form after the
header: a heading line only for chapters with a title, then one
speaker-or-Unknown line per segment, keeping segments with empty text. -/
theorem c9_chapter_transcript_rendering (doc : Doc) (tdata : Option (List Segment))
    (h : tdata.getD [] = [] ∧ doc.transcript = []) :
    format_transcript doc tdata =
      String.intercalate "\n" (transcriptHeaderLines doc ++
        doc.chapters.flatMap (fun ch =>
          (match truthy ch.title with
           | some t => ["\n## " ++ t ++ "\n"]
           | none => [])
            ++ ch.transcript.map (fun seg =>
              "**" ++ ((seg.speaker).getD "Unknown") ++ ":** " ++ ((seg.text).getD "") ++ "\n"))) := by
  obtain ⟨h1, h2⟩ := h
  cases tdata with
  | none => simp [format_transcript, h2]
  | some l =>
    have hl : l = [] := by simpa using h1
    subst hl
    simp [format_transcript, h2]

/-- Witness for C9 on a document with a titled chapter holding an empty-text
segment and an untitled chapter. -/
theorem c9_chapter_transcript_rendering_witness :
    ((none : Option (List Segment)).getD [] = [] ∧ c9wDoc.transcript = [])
      ∧ format_transcript c9wDoc none =
          String.intercalate "\n" (transcriptHeaderLines c9wDoc ++
            c9wDoc.chapters.flatMap (fun ch =>
              (match truthy ch.title with
               | some t => ["\n## " ++ t ++ "\n"]
               | none => [])
                ++ ch.transcript.map (fun seg =>
                  "**" ++ ((seg.speaker).getD "Unknown") ++ ":** " ++ ((seg.text).getD "") ++ "\n")))
      ∧ format_transcript c9wDoc none =
          "# T\n\n**Date:** Unknown\n\n---\n\n\n## Intro\n\n**S:** hi\n\n**S:** \n\n**Unknown:** tail\n" :=
  ⟨⟨rfl, rfl⟩,
   c9_chapter_transcript_rendering c9wDoc none ⟨rfl, rfl⟩,
   by decide⟩

theorem collapseRuns_length_le : ∀ l : List Char, (collapseRuns l).length ≤ l.length
  | [] => Nat.le_refl _
  | [c] => by simp [collapseRuns]
  | c1 :: c2 :: rest => by
    have ih := collapseRuns_length_le (c2 :: rest)
    unfold collapseRuns
    by_cases h : (isSpaceDash c1 && isSpaceDash c2) = true
    · rw [if_pos h]
      simp only [List.length_cons] at ih ⊢
      omega
    · rw [if_neg h]
      simp only [List.length_cons] at ih ⊢
      omega

theorem collapseRuns_mem : ∀ (l : List Char) (c : Char), c ∈ collapseRuns l → c = '-' ∨ c ∈ l
  | [], c => by simp [collapseRuns]
  | [a], c => by
    simp only [collapseRuns, List.mem_singleton]
    intro h
    subst h
    by_cases ha : isSpaceDash a = true
    · rw [if_pos ha]
      exact Or.inl rfl
    · rw [if_neg ha]
      exact Or.inr rfl
  | c1 :: c2 :: rest, c => by
    unfold collapseRuns
    by_cases h : (isSpaceDash c1 && isSpaceDash c2) = true
    · rw [if_pos h]
      intro hc
      rcases collapseRuns_mem (c2 :: rest) c hc with h' | h'
      · exact Or.inl h'
      · exact Or.inr (List.mem_cons_of_mem c1 h')
    · rw [if_neg h]
      intro hc
      rcases List.mem_cons.mp hc with hc | hc
      · by_cases h1 : isSpaceDash c1 = true
        · rw [if_pos h1] at hc
          exact Or.inl hc
        · rw [if_neg h1] at hc
          exact Or.inr (hc ▸ List.mem_cons_self c1 (c2 :: rest))
      · rcases collapseRuns_mem (c2 :: rest) c hc with h' | h'
        · exact Or.inl h'
        · exact Or.inr (List.mem_cons_of_mem c1 h')

theorem rstripChars_length_le (cs : List Char) (bad : Char → Bool) :
    (rstripChars cs bad).length ≤ cs.length := by
  unfold rstripChars
  rw [List.length_reverse]
  calc (cs.reverse.dropWhile bad).length
      ≤ cs.reverse.length := (List.dropWhile_sublist bad).length_le
    _ = cs.length := List.length_reverse cs

theorem mem_rstripChars (cs : List Char) (bad : Char → Bool) (c : Char)
    (h : c ∈ rstripChars cs bad) : c ∈ cs := by
  unfold rstripChars at h
  rw [List.mem_reverse] at h
  have h2 : c ∈ cs.reverse := List.Sublist.mem h (List.dropWhile_sublist bad)
  rwa [List.mem_reverse] at h2

theorem strMk_length (cs : List Char) : (String.mk cs).length = cs.length := rfl

theorem mem_sanitize_core (name : String) (c : Char)
    (hc : c ∈ rstripChars
      ((collapseRuns (name.data.map (fun ch => if isHostile ch then '-' else ch))).dropWhile isDashSpace)
      isDashSpace) :
    isHostile c = false := by
  have h1 : c ∈ (collapseRuns (name.data.map (fun ch => if isHostile ch then '-' else ch))).dropWhile isDashSpace :=
    mem_rstripChars _ _ _ hc
  have h2 : c ∈ collapseRuns (name.data.map (fun ch => if isHostile ch then '-' else ch)) :=
    List.Sublist.mem h1 (List.dropWhile_sublist _)
  rcases collapseRuns_mem _ c h2 with h | h
  · subst h
    decide
  · rw [List.mem_map] at h
    obtain ⟨a, -, ha⟩ := h
    subst ha
    by_cases hha : isHostile a = true
    · rw [if_pos hha]
      decide
    · rw [if_neg hha]
      exact Bool.not_eq_true _ ▸ hha

theorem untitled_no_hostile : ∀ x ∈ "Untitled".data, isHostile x = false := by decide

theorem sanitize_filename_length_le (name : String) :
    (sanitize_filename name 50).length ≤ 50 := by
  simp only [sanitize_filename]
  by_cases ht : 50 < (rstripChars ((collapseRuns (name.data.map fun ch => if isHostile ch = true then '-' else ch)).dropWhile isDashSpace) isDashSpace).length
  · rw [if_pos ht]
    split
    · decide
    · rw [strMk_length]
      exact Nat.le_trans (rstripChars_length_le _ _) (by rw [List.length_take]; omega)
  · rw [if_neg ht]
    split
    · decide
    · rw [strMk_length]
      omega

theorem sanitize_filename_no_hostile (name : String) :
    ∀ c ∈ (sanitize_filename name 50).data, isHostile c = false := by
  intro c hc
  simp only [sanitize_filename] at hc
  by_cases ht : 50 < (rstripChars ((collapseRuns (name.data.map fun ch => if isHostile ch = true then '-' else ch)).dropWhile isDashSpace) isDashSpace).length
  · rw [if_pos ht] at hc
    by_cases he : rstripChars ((rstripChars ((collapseRuns (name.data.map fun ch => if isHostile ch = true then '-' else ch)).dropWhile isDashSpace) isDashSpace).take 50) isDashSpace = []
    · rw [if_pos he] at hc
      exact untitled_no_hostile c hc
    · rw [if_neg he] at hc
      exact mem_sanitize_core name c
        (List.Sublist.mem (mem_rstripChars _ _ _ hc) (List.take_sublist 50 _))
  · rw [if_neg ht] at hc
    by_cases he : rstripChars ((collapseRuns (name.data.map fun ch => if isHostile ch = true then '-' else ch)).dropWhile isDashSpace) isDashSpace = []
    · rw [if_pos he] at hc
      exact untitled_no_hostile c hc
    · rw [if_neg he] at hc
      exact mem_sanitize_core name c hc

theorem sanitize_filename_ne_empty (name : String) : sanitize_filename name 50 ≠ "" := by
  simp only [sanitize_filename]
  by_cases ht : 50 < (rstripChars ((collapseRuns (name.data.map fun ch => if isHostile ch = true then '-' else ch)).dropWhile isDashSpace) isDashSpace).length
  · rw [if_pos ht]
    split
    · decide
    · rename_i h
      intro hcontra
      exact h (congrArg String.data hcontra)
  · rw [if_neg ht]
    split
    · decide
    · rename_i h
      intro hcontra
      exact h (congrArg String.data hcontra)

/-- Claim C4: the slug is a pure function of created_at and title with the
stated date-underscore-title shape, and the sanitized title part never
exceeds 50 characters, never contains a filesystem-hostile character, and is
never empty (falling back to Untitled). -/
theorem c4_slug_shape_and_sanitization (doc : Doc) :
    make_folder_name doc = slugOfPair doc.created_at doc.title
      ∧ (sanitize_filename ((truthy doc.title).getD "Untitled") 50).length ≤ 50
      ∧ (∀ c ∈ (sanitize_filename ((truthy doc.title).getD "Untitled") 50).data,
          isHostile c = false)
      ∧ sanitize_filename ((truthy doc.title).getD "Untitled") 50 ≠ "" :=
  ⟨rfl, sanitize_filename_length_le _, sanitize_filename_no_hostile _,
   sanitize_filename_ne_empty _⟩

/-- Witness for C4 on a concrete title with hostile characters, whitespace
runs and surrounding junk. -/
theorem c4_slug_shape_and_sanitization_witness :
    (make_folder_name c4wDoc = slugOfPair c4wDoc.created_at c4wDoc.title
        ∧ (sanitize_filename ((truthy c4wDoc.title).getD "Untitled") 50).length ≤ 50
        ∧ (∀ c ∈ (sanitize_filename ((truthy c4wDoc.title).getD "Untitled") 50).data,
            isHostile c = false)
        ∧ sanitize_filename ((truthy c4wDoc.title).getD "Untitled") 50 ≠ "")
      ∧ make_folder_name c4wDoc = "2025-01-15_He-llo-wor-ld" :=
  ⟨c4_slug_shape_and_sanitization c4wDoc, by decide⟩

theorem keep_dateTarget_merge (env : PyEnv) (k : Option Int → Option Int → Bool)
    (hk : ∀ md, k none md = true) (a b : Option String) (md : Option Int)
    (h : a = none ∨ b = none) :
    k (dateTarget env (mergeOpt a b)) md
      = (k (dateTarget env a) md && k (dateTarget env b) md) := by
  rcases h with h | h <;> subst h
  · simp [mergeOpt, dateTarget, truthy, hk]
  · cases a <;> simp [mergeOpt, dateTarget, truthy, hk]

theorem keepTitle_merge (env : PyEnv) (a b : Option String) (m : Metadata)
    (h : a = none ∨ b = none) :
    keepTitle env (mergeOpt a b) m = (keepTitle env a m && keepTitle env b m) := by
  rcases h with h | h <;> subst h
  · simp [mergeOpt, keepTitle, truthy]
  · cases a <;> simp [mergeOpt, keepTitle, truthy]

theorem keepPart_merge (a b : Option String) (m : Metadata)
    (h : a = none ∨ b = none) :
    keepPart (mergeOpt a b) m = (keepPart a m && keepPart b m) := by
  rcases h with h | h <;> subst h
  · simp [mergeOpt, keepPart, truthy]
  · cases a <;> simp [mergeOpt, keepPart, truthy]

/-- Claim C7: whenever two argument tuples activate disjoint predicate
positions, filtering with both at once returns exactly the records belonging
to both single-tuple results (AND semantics), and the result is a sublist of
the input, preserving input order; the hypotheses range over every
combination of the date, range, title and participant predicates. -/
theorem c7_filter_predicates_intersect (env : PyEnv) (ms : List Metadata)
    (od1 sd1 ed1 ti1 pa1 od2 sd2 ed2 ti2 pa2 : Option String)
    (h1 : od1 = none ∨ od2 = none) (h2 : sd1 = none ∨ sd2 = none)
    (h3 : ed1 = none ∨ ed2 = none) (h4 : ti1 = none ∨ ti2 = none)
    (h5 : pa1 = none ∨ pa2 = none) :
    (∀ m, m ∈ filter_meetings env ms (mergeOpt od1 od2) (mergeOpt sd1 sd2)
            (mergeOpt ed1 ed2) (mergeOpt ti1 ti2) (mergeOpt pa1 pa2)
        ↔ m ∈ filter_meetings env ms od1 sd1 ed1 ti1 pa1
            ∧ m ∈ filter_meetings env ms od2 sd2 ed2 ti2 pa2)
      ∧ (filter_meetings env ms (mergeOpt od1 od2) (mergeOpt sd1 sd2)
          (mergeOpt ed1 ed2) (mergeOpt ti1 ti2) (mergeOpt pa1 pa2)).Sublist ms := by
  have key : ∀ m : Metadata,
      (keepDate (dateTarget env (mergeOpt od1 od2)) (get_meeting_date env m)
          && keepStart (dateTarget env (mergeOpt sd1 sd2)) (get_meeting_date env m)
          && keepEnd (dateTarget env (mergeOpt ed1 ed2)) (get_meeting_date env m)
          && keepTitle env (mergeOpt ti1 ti2) m
          && keepPart (mergeOpt pa1 pa2) m)
        = ((keepDate (dateTarget env od1) (get_meeting_date env m)
              && keepStart (dateTarget env sd1) (get_meeting_date env m)
              && keepEnd (dateTarget env ed1) (get_meeting_date env m)
              && keepTitle env ti1 m
              && keepPart pa1 m)
            && (keepDate (dateTarget env od2) (get_meeting_date env m)
              && keepStart (dateTarget env sd2) (get_meeting_date env m)
              && keepEnd (dateTarget env ed2) (get_meeting_date env m)
              && keepTitle env ti2 m
              && keepPart pa2 m)) := by
    intro m
    rw [keep_dateTarget_merge env keepDate (fun md => rfl) od1 od2 _ h1,
      keep_dateTarget_merge env keepStart (fun md => rfl) sd1 sd2 _ h2,
      keep_dateTarget_merge env keepEnd (fun md => rfl) ed1 ed2 _ h3,
      keepTitle_merge env ti1 ti2 m h4,
      keepPart_merge pa1 pa2 m h5]
    generalize keepDate (dateTarget env od1) (get_meeting_date env m) = b1
    generalize keepStart (dateTarget env sd1) (get_meeting_date env m) = b2
    generalize keepEnd (dateTarget env ed1) (get_meeting_date env m) = b3
    generalize keepTitle env ti1 m = b4
    generalize keepPart pa1 m = b5
    generalize keepDate (dateTarget env od2) (get_meeting_date env m) = b6
    generalize keepStart (dateTarget env sd2) (get_meeting_date env m) = b7
    generalize keepEnd (dateTarget env ed2) (get_meeting_date env m) = b8
    generalize keepTitle env ti2 m = b9
    generalize keepPart pa2 m = b10
    cases b1 <;> cases b2 <;> cases b3 <;> cases b4 <;> cases b5 <;> cases b6 <;>
      cases b7 <;> cases b8 <;> cases b9 <;> cases b10 <;> rfl
  constructor
  · intro m
    simp only [filter_meetings, List.mem_filter, key m, Bool.and_eq_true]
    tauto
  · simp only [filter_meetings]
    exact List.filter_sublist ms

/-- Witness for C7: title predicate standup combined with participant
predicate alice on a concrete three-record store. -/
theorem c7_filter_predicates_intersect_witness :
    (((none : Option String) = none ∨ (none : Option String) = none)
        ∧ (some "standup" = none ∨ (none : Option String) = none))
      ∧ ((∀ m, m ∈ filter_meetings c7wEnv c7wMs (mergeOpt none none) (mergeOpt none none)
              (mergeOpt none none) (mergeOpt (some "standup") none) (mergeOpt none (some "alice"))
          ↔ m ∈ filter_meetings c7wEnv c7wMs none none none (some "standup") none
              ∧ m ∈ filter_meetings c7wEnv c7wMs none none none none (some "alice"))
          ∧ (filter_meetings c7wEnv c7wMs (mergeOpt none none) (mergeOpt none none)
              (mergeOpt none none) (mergeOpt (some "standup") none) (mergeOpt none (some "alice"))).Sublist c7wMs)
      ∧ (filter_meetings c7wEnv c7wMs (mergeOpt none none) (mergeOpt none none)
          (mergeOpt none none) (mergeOpt (some "standup") none) (mergeOpt none (some "alice"))).map
            (fun m => m.id) = ["a"] :=
  ⟨⟨Or.inl rfl, Or.inr rfl⟩,
   c7_filter_predicates_intersect c7wEnv c7wMs none none none (some "standup") none
     none none none none (some "alice") (Or.inl rfl) (Or.inl rfl) (Or.inl rfl)
     (Or.inr rfl) (Or.inl rfl),
   by decide⟩

theorem searchFileAux_mem (pmatch : String → Bool) (ctx : Nat) (allLines : List String) :
    ∀ (cur : List String) (i0 : Nat) (m : SearchMatch),
      m ∈ searchFileAux pmatch ctx allLines i0 cur →
      ∃ k, k < cur.length ∧ pmatch (cur.getD k "") = true ∧ m.line = i0 + k + 1
        ∧ m.text = pyStripWs (cur.getD k "")
        ∧ m.context = (if 0 < ctx then
            some (sliceJoin allLines ((i0 + k) - ctx) (min allLines.length (i0 + k + ctx + 1)))
            else none) := by
  intro cur
  induction cur with
  | nil => intro i0 m h; exact absurd h (List.not_mem_nil m)
  | cons ln rest ih =>
    intro i0 m h
    unfold searchFileAux at h
    by_cases hp : pmatch ln = true
    · rw [if_pos hp] at h
      rcases List.mem_cons.mp h with h | h
      · subst h
        refine ⟨0, Nat.succ_pos _, ?_, ?_, ?_, ?_⟩
        · rw [getD_cons_zero]; exact hp
        · show i0 + 1 = i0 + 0 + 1
          omega
        · rw [getD_cons_zero]
        · simp
      · obtain ⟨k, hk, hpk, hline, htext, hctx⟩ := ih (i0 + 1) m h
        refine ⟨k + 1, Nat.succ_lt_succ hk, ?_, ?_, ?_, ?_⟩
        · rwa [getD_cons_succ]
        · rw [hline]; omega
        · rwa [getD_cons_succ]
        · rw [hctx]
          have harith : i0 + 1 + k = i0 + (k + 1) := by omega
          rw [harith]
    · rw [if_neg hp] at h
      obtain ⟨k, hk, hpk, hline, htext, hctx⟩ := ih (i0 + 1) m h
      refine ⟨k + 1, Nat.succ_lt_succ hk, ?_, ?_, ?_, ?_⟩
      · rwa [getD_cons_succ]
      · rw [hline]; omega
      · rwa [getD_cons_succ]
      · rw [hctx]
        have harith : i0 + 1 + k = i0 + (k + 1) := by omega
        rw [harith]

/-- Claim C8: every match recorded by the search loop carries the 1-based
line number and the trimmed matching line, and its context is the joined
block from contextLines lines before to contextLines lines after the match,
clamped to the file bounds, exactly when contextLines is positive, and absent
when contextLines is zero. -/
theorem c8_search_match_shape (pmatch : String → Bool) (ctx : Nat) (lines : List String)
    (m : SearchMatch) (h : m ∈ cmd_search_matches pmatch ctx lines) :
    ∃ i, i < lines.length ∧ pmatch (lines.getD i "") = true ∧ m.line = i + 1
      ∧ m.text = pyStripWs (lines.getD i "")
      ∧ m.context = (if 0 < ctx then
          some (String.intercalate "\n"
            ((lines.drop (i - ctx)).take (min lines.length (i + ctx + 1) - (i - ctx))))
          else none) := by
  obtain ⟨k, hk, hp, hline, htext, hctx⟩ :=
    searchFileAux_mem pmatch ctx lines lines 0 m h
  refine ⟨k, hk, hp, by simpa using hline, htext, ?_⟩
  rw [hctx]
  simp [sliceJoin]

/-- Witness for C8 on a ten-line file with contextLines 2: the match on line
5 spans lines 3 to 7, the match on line 1 spans lines 1 to 3, and with
contextLines 0 no context is attached. -/
theorem c8_search_match_shape_witness :
    ((⟨5, "l5 hit", some "l3\nl4\nl5 hit\nl6\nl7"⟩ : SearchMatch)
        ∈ cmd_search_matches (fun s => strContains s "hit") 2 c8wLines)
      ∧ (∃ i, i < c8wLines.length
          ∧ (fun s => strContains s "hit") (c8wLines.getD i "") = true
          ∧ (⟨5, "l5 hit", some "l3\nl4\nl5 hit\nl6\nl7"⟩ : SearchMatch).line = i + 1
          ∧ (⟨5, "l5 hit", some "l3\nl4\nl5 hit\nl6\nl7"⟩ : SearchMatch).text
              = pyStripWs (c8wLines.getD i "")
          ∧ (⟨5, "l5 hit", some "l3\nl4\nl5 hit\nl6\nl7"⟩ : SearchMatch).context
              = (if 0 < 2 then
                  some (String.intercalate "\n"
                    ((c8wLines.drop (i - 2)).take (min c8wLines.length (i + 2 + 1) - (i - 2))))
                  else none))
      ∧ cmd_search_matches (fun s => strContains s "hit") 2 c8wLines
          = [⟨1, "l1 hit", some "l1 hit\nl2\nl3"⟩, ⟨5, "l5 hit", some "l3\nl4\nl5 hit\nl6\nl7"⟩]
      ∧ cmd_search_matches (fun s => strContains s "hit") 0 c8wLines
          = [⟨1, "l1 hit", none⟩, ⟨5, "l5 hit", none⟩] :=
  ⟨by decide,
   c8_search_match_shape (fun s => strContains s "hit") 2 c8wLines
     ⟨5, "l5 hit", some "l3\nl4\nl5 hit\nl6\nl7"⟩ (by decide),
   by decide, by decide⟩

end Granola
